import Mathlib

/-!
# Verification of the bsc-mev-sentry core against its specification

Shallow embedding of the MEV sentry gateway: the per-validator state cache
and its refresh protocol (`node/validator.go`), the payment-transaction
generator (`GeneratePayBidTx`), the dispatch layer (`service` package:
`SendBid`, `ReportIssue`, `timeoutCancel`), and the admission limiter
(`gin/concurrency_limiter.go`).

Conventions of the embedding:
* Go `*big.Int` values are `Int`; a nilable pointer is `Option Int`.
* Go `uint64` counters that never overflow in practice (nonce, gas) are `Nat`.
* A fallible upstream RPC fetch is represented by the `Option`/`Except`
  value it produced: `none`/`.error` exactly when the Go call returned a
  non-nil error (in which case the Go result variable holds its zero value).
* A Go runtime panic (nil-pointer dereference) is the `none` case of an
  `Option` result, kept distinct from ordinary error returns.
* Addresses and hashes are opaque and modelled as `Nat`.
-/

/-- An account/builder address (`common.Address`), opaque. -/
abbrev Address := Nat

/-- A 32-byte hash (`common.Hash`), opaque. -/
abbrev Hash := Nat

/-- `types.MevParams` restricted to the field the sentry reads:
the validator-side builder-fee ceiling (`BuilderFeeCeil *big.Int`). -/
structure MevParams where
  builderFeeCeil : Int
  deriving Repr, DecidableEq

/-- The mutable cache of `node/validator.go`'s `validator` struct:
`chainID atomic.Pointer[big.Int]`, `mevRunning uint32` (read as a Bool),
`mevParams atomic.Pointer[types.MevParams]`,
`payAccountBalance atomic.Pointer[big.Int]`, `payAccountNonce uint64`.
An `Option` field is `none` exactly when the Go atomic pointer is nil. -/
structure ValidatorState where
  chainID : Option Int
  mevRunning : Bool
  mevParams : Option MevParams
  payAccountBalance : Option Int
  payAccountNonce : Nat
  deriving Repr, DecidableEq

/-- The validator cache as `NewValidator` constructs it: every atomic
pointer nil, `mevRunning` 0, `payAccountNonce` 0 (Go zero values). -/
def initValidatorState : ValidatorState :=
  { chainID := none
    mevRunning := false
    mevParams := none
    payAccountBalance := none
    payAccountNonce := 0 }

/-- The outcome of the five upstream fetches issued by one `refresh` tick.
Each field is `some v` when the corresponding RPC call returned `v` with a
nil error, and `none` when it returned a non-nil error (the Go result then
holds its zero value: nil pointer, `false`, or `0`). -/
structure FetchResults where
  chainID : Option Int
  mevRunning : Option Bool
  balance : Option Int
  nonce : Option Nat
  mevParams : Option MevParams
  deriving Repr, DecidableEq

/-- `(*validator).refresh` from `node/validator.go`: each fetched value is
applied to the cache in order. `chainID`, `balance` and `mevParams` are
stored only under a `!= nil` guard, so a failed fetch leaves the previous
pointer. `mevRunning` and `payAccountNonce` are stored unconditionally, so
a failed fetch stores the Go zero value (`false`, resp. `0`). -/
def refresh (v : ValidatorState) (r : FetchResults) : ValidatorState :=
  { chainID := match r.chainID with
      | some c => some c
      | none => v.chainID
    mevRunning := r.mevRunning.getD false
    payAccountBalance := match r.balance with
      | some b => some b
      | none => v.payAccountBalance
    payAccountNonce := r.nonce.getD 0
    mevParams := match r.mevParams with
      | some p => some p
      | none => v.mevParams }

/-- `(*validator).BuilderFeeCeil`: the cached params' `BuilderFeeCeil`,
or `big.NewInt(0)` when the params pointer is still nil. -/
def builderFeeCeil (v : ValidatorState) : Int :=
  match v.mevParams with
  | some params => params.builderFeeCeil
  | none => 0

/-- `PayBidTxGasUsed` from `node/validator.go`. -/
def payBidTxGasUsed : Nat := 25000

/-- `types.LegacyTx` restricted to the fields `GeneratePayBidTx` sets
(`toAddr` is the Go field `To`, renamed to avoid a reserved token). -/
structure LegacyTx where
  nonce : Nat
  gasPrice : Int
  gas : Nat
  toAddr : Address
  value : Int
  deriving Repr, DecidableEq

/-- A signed transaction. Modelled from the spec: cryptographic signing is
an out-of-scope library capability (spec §1), characterised by its
contract — the signature embeds the signer's identity, and recovery
returns exactly that identity. -/
structure SignedTx where
  inner : LegacyTx
  signer : Address
  deriving Repr, DecidableEq

/-- An Account Signer (spec §4.1): a fixed address plus the signing
outcome. `signErr = some e` models a signing backend that fails with
error `e`; `none` models successful signing. -/
structure Account where
  address : Address
  signErr : Option String
  deriving Repr, DecidableEq

/-- Modelled from the spec: `Account.SignTx` (both the raw-key and the
keystore variant of `account/account.go` delegate to go-ethereum's ECDSA
signing, out of scope per spec §1). On success the signed transaction
carries the account's address as recoverable signer; the chain id selects
the signature scheme and is not otherwise observable here. -/
def accountSignTx (a : Account) (tx : LegacyTx) (_chainID : Option Int) :
    Except String SignedTx :=
  match a.signErr with
  | some e => Except.error e
  | none => Except.ok { inner := tx, signer := a.address }

/-- Modelled from the spec: go-ethereum's ECDSA public-key recovery over a
signed transaction returns the signer's address (library capability,
spec §1 and §8 round-trip property). -/
def recoverSender (s : SignedTx) : Address :=
  s.signer

/-- Modelled from the spec: `Transaction.MarshalBinary`, a faithful binary
encoding of the signed transaction (go-ethereum RLP, out of scope per
spec §1). Encoded as the flat field list. -/
def marshalBinary (s : SignedTx) : List Int :=
  [Int.ofNat s.inner.nonce, s.inner.gasPrice, Int.ofNat s.inner.gas,
   Int.ofNat s.inner.toAddr, s.inner.value, Int.ofNat s.signer]

/-- Modelled from the spec: decoding of `marshalBinary`'s output
(go-ethereum `UnmarshalBinary`). -/
def unmarshalBinary (bytes : List Int) : Option SignedTx :=
  match bytes with
  | [a, b, c, d, e, f] =>
    if 0 ≤ a ∧ 0 ≤ c ∧ 0 ≤ d ∧ 0 ≤ f then
      some { inner := { nonce := a.toNat, gasPrice := b, gas := c.toNat,
                        toAddr := d.toNat, value := e },
             signer := f.toNat }
    else none
  | _ => none

/-- Errors `GeneratePayBidTx` returns (`errors.New("insufficient
balance")`, or the signer's error passed through). -/
inductive GenError where
  | insufficientBalance
  | signFailed (msg : String)
  deriving Repr, DecidableEq

/-- Observable outcome of one `GeneratePayBidTx` call: the validator cache
after the call, the transactions submitted to the Account Signer, and the
returned value. `output = none` models the Go runtime panic
(nil-pointer dereference); `some` is an ordinary return. -/
structure GenResult where
  state : ValidatorState
  signCalls : List LegacyTx
  output : Option (Except GenError (List Int))

/-- `(*validator).GeneratePayBidTx` from `node/validator.go`:
`amount := builderFee` (zero when nil); compare
`n.payAccountBalance.Load().Cmp(amount)` — a nil balance pointer is
dereferenced without a guard (panic, modelled as `output = none`);
on `balance < amount` return the insufficient-balance error; otherwise
build the legacy transaction (nonce from the cache, gas price 0, gas
`PayBidTxGasUsed`, recipient `builder`, value `amount`), sign it with the
pay account and the cached chain id, and return its binary encoding.
The method performs no store on the cache. -/
def generatePayBidTx (v : ValidatorState) (acc : Account) (builder : Address)
    (builderFee : Option Int) : GenResult :=
  let amount : Int := builderFee.getD 0
  match v.payAccountBalance with
  | none => { state := v, signCalls := [], output := none }
  | some balance =>
    if balance < amount then
      { state := v, signCalls := [],
        output := some (Except.error GenError.insufficientBalance) }
    else
      let tx : LegacyTx :=
        { nonce := v.payAccountNonce
          gasPrice := 0
          gas := payBidTxGasUsed
          toAddr := builder
          value := amount }
      match accountSignTx acc tx v.chainID with
      | Except.error e =>
        { state := v, signCalls := [tx],
          output := some (Except.error (GenError.signFailed e)) }
      | Except.ok signedTx =>
        { state := v, signCalls := [tx],
          output := some (Except.ok (marshalBinary signedTx)) }

/-! ## Dispatch layer (`service` package: `SendBid`, `ReportIssue`, `timeoutCancel`) -/

/-- `types.RawBid` restricted to the field the dispatch layer reads.
The fee is non-optional here because `SendBid` dereferences
`args.RawBid.BuilderFee` unconditionally. -/
structure RawBid where
  builderFee : Int
  deriving Repr, DecidableEq

/-- `types.BidArgs`: the raw bid, the outcome of
`args.EcrecoverSender()` (modelled from the spec: ECDSA recovery over the
bid signature is a library capability, spec §1 — `.ok a` recovers the
builder address `a`, `.error e` is an invalid signature), and the
payment-transaction bytes attached before forwarding. -/
structure BidArgs where
  rawBid : RawBid
  ecrecover : Except String Address
  payBidTx : Option (List Int)

/-- A validator peer as the dispatch layer sees it. `bidFeeCeil` is
modelled from the spec: the `BidFeeCeil` accessor called by `SendBid` is
not part of src — per spec §4.6/§8 it is the peer's configured
nonnegative fee ceiling. `sendBidResult` is the upstream response of
`validator.SendBid` (network call, out of scope per spec §1). -/
structure ValidatorPeer where
  bidFeeCeil : Nat
  state : ValidatorState
  account : Account
  sendBidResult : Except String Hash

/-- A builder peer: `reportIssueResult` is the upstream response of
`builder.ReportIssue` (network call, out of scope per spec §1). -/
structure BuilderPeer where
  reportIssueResult : Except String Unit

/-- The `MevSentry` service struct: per-call timeout (`Duration`, an
integer nanosecond count), the `hostname -> validator` routing table and
the `address -> builder` routing table. -/
structure MevSentry where
  timeout : Int
  validators : List (String × ValidatorPeer)
  builders : List (Address × BuilderPeer)

/-- The hostname normalisation at the top of every validator-bound method:
`if strings.Contains(hostname, ":") { hostname = hostname[:strings.Index(hostname, ":")] }`
— the prefix of the declared host identity before the first colon. -/
def stripPort (h : String) : String :=
  String.mk (h.data.takeWhile (fun c => c ≠ ':'))

/-- The error surface of `SendBid` (`service` package): invalid-bid
errors (`NewInvalidBidError`) for an unknown hostname, a fee above the
ceiling and a bad signature; the sentry error for a failed payment-tx
generation; and the forwarded upstream failure. -/
inductive SendBidError where
  | validatorNotFound
  | feeCeilingExceeded (ceil : Int)
  | invalidSignature (msg : String)
  | payBidTxFailed
  | sendFailed (msg : String)
  deriving Repr, DecidableEq

/-- Observable outcome of one `SendBid` dispatch: the calls made to the
Payment Transaction Generator (builder address and fee of each
`GeneratePayBidTx` invocation) and the returned value (`none` models a
runtime panic propagated from the generator). -/
structure SendBidOutcome where
  genCalls : List (Address × Option Int)
  result : Option (Except SendBidError Hash)

/-- `(*MevSentry).SendBid`: strip the port from the caller's declared
host, look the validator up (invalid-bid error when absent), reject when
`args.RawBid.BuilderFee.Cmp(bidFeeCeil) > 0`, recover the builder address
from the bid signature (invalid-bid error on failure), generate the
payment transaction, attach it and forward to the validator. -/
def sendBid (s : MevSentry) (hostHeader : String) (args : BidArgs) :
    SendBidOutcome :=
  let hostname := stripPort hostHeader
  match List.lookup hostname s.validators with
  | none =>
    { genCalls := [], result := some (Except.error SendBidError.validatorNotFound) }
  | some v =>
    let bidFeeCeil : Int := (v.bidFeeCeil : Int)
    if bidFeeCeil < args.rawBid.builderFee then
      { genCalls := [],
        result := some (Except.error (SendBidError.feeCeilingExceeded bidFeeCeil)) }
    else
      match args.ecrecover with
      | Except.error e =>
        { genCalls := [],
          result := some (Except.error (SendBidError.invalidSignature e)) }
      | Except.ok builder =>
        let g := generatePayBidTx v.state v.account builder (some args.rawBid.builderFee)
        match g.output with
        | none =>
          { genCalls := [(builder, some args.rawBid.builderFee)], result := none }
        | some (Except.error _) =>
          { genCalls := [(builder, some args.rawBid.builderFee)],
            result := some (Except.error SendBidError.payBidTxFailed) }
        | some (Except.ok _bytes) =>
          { genCalls := [(builder, some args.rawBid.builderFee)],
            result := some (match v.sendBidResult with
              | Except.error e => Except.error (SendBidError.sendFailed e)
              | Except.ok h => Except.ok h) }

/-- `types.BidIssue` restricted to the routing field. -/
structure BidIssue where
  builder : Address
  deriving Repr, DecidableEq

/-- Errors `ReportIssue` returns: `errors.New("builder not found")` for an
unconfigured address, or the forwarded upstream failure. -/
inductive ReportIssueError where
  | builderNotFound
  | upstreamFailed (msg : String)
  deriving Repr, DecidableEq

/-- `(*MevSentry).ReportIssue`: look the builder up by the address inside
the request payload (`issue.Builder`); error when absent, otherwise
forward to the builder endpoint. -/
def reportIssue (s : MevSentry) (issue : BidIssue) : Except ReportIssueError Unit :=
  match List.lookup issue.builder s.builders with
  | none => Except.error ReportIssueError.builderNotFound
  | some b =>
    match b.reportIssueResult with
    | Except.error e => Except.error (ReportIssueError.upstreamFailed e)
    | Except.ok _ => Except.ok ()

/-- A request context: its deadline, if any (`context.Context`).
Instants are integer nanosecond timestamps. -/
structure Context where
  deadline : Option Int
  deriving Repr, DecidableEq

/-- `timeoutCancel` from the `service` package: when the configured
timeout is strictly positive, replace the context by
`context.WithTimeout(ctx, timeout)` — whose deadline is `now + timeout`,
capped by any earlier parent deadline; otherwise leave the context
untouched (`nilCancel`). -/
def timeoutCancel (ctx : Context) (timeout : Int) (now : Int) : Context :=
  if 0 < timeout then
    { deadline := some (match ctx.deadline with
        | some d => min d (now + timeout)
        | none => now + timeout) }
  else ctx

/-! ## Admission limiter (`gin/concurrency_limiter.go`)

`ConcurrencyLimiter(max)` returns a pass-through handler when
`max <= 0`; otherwise it gates every request on a buffered channel of
capacity `max` (`lc <- struct{}{}` on entry, `<-lc` on exit). The state
of the gate is the number of requests currently holding a slot; a send
on the channel is enabled exactly when fewer than `max` slots are
occupied, and a caller whose send is not enabled blocks. -/

/-- Whether a caller may enter the handler immediately: no gate at all
when `max ≤ 0`, otherwise a free channel slot must exist. -/
def canEnter (max : Int) (inflight : Nat) : Prop :=
  max ≤ 0 ∨ (inflight : Int) < max

instance (max : Int) (inflight : Nat) : Decidable (canEnter max inflight) := by
  unfold canEnter
  exact inferInstance

/-- One transition of the admission gate: a caller enters (channel send,
enabled per `canEnter`) or a caller finishes (channel receive). -/
inductive LimiterStep (max : Int) : Nat → Nat → Prop where
  | enter (n : Nat) (h : canEnter max n) : LimiterStep max n (n + 1)
  | leave (n : Nat) : LimiterStep max (n + 1) n

/-- Gate states reachable from the idle limiter (an empty channel). -/
inductive LimiterReachable (max : Int) : Nat → Prop where
  | init : LimiterReachable max 0
  | step {n m : Nat} : LimiterReachable max n → LimiterStep max n m →
      LimiterReachable max m

/-! ## Concrete fixtures used by counterexamples and witnesses -/

/-- A cache state with liveness `true`, balance 50, nonce 7. -/
def prevSnapshot : ValidatorState :=
  { chainID := some 56
    mevRunning := true
    mevParams := some { builderFeeCeil := 100 }
    payAccountBalance := some 50
    payAccountNonce := 7 }

/-- A refresh tick on which only the liveness fetch fails; the balance
fetch succeeds with 100. -/
def tickLivenessFails : FetchResults :=
  { chainID := some 56
    mevRunning := none
    balance := some 100
    nonce := some 7
    mevParams := some { builderFeeCeil := 100 } }

/-- A refresh tick on which every fetch fails. -/
def tickAllFail : FetchResults :=
  { chainID := none, mevRunning := none, balance := none, nonce := none,
    mevParams := none }

/-- Validator cache of scenario 2: balance 50, nonce 7. -/
def v1State : ValidatorState :=
  { chainID := some 56
    mevRunning := true
    mevParams := some { builderFeeCeil := 100 }
    payAccountBalance := some 50
    payAccountNonce := 7 }

/-- Validator cache of scenario 3: balance 200, nonce 7. -/
def v2State : ValidatorState :=
  { chainID := some 56
    mevRunning := true
    mevParams := some { builderFeeCeil := 100 }
    payAccountBalance := some 200
    payAccountNonce := 7 }

/-- A pay account at address 170 whose signer succeeds. -/
def v1Account : Account := { address := 170, signErr := none }

/-- The peer entry for validator hostname `v1`, fee ceiling 100. -/
def v1Peer : ValidatorPeer :=
  { bidFeeCeil := 100
    state := v2State
    account := v1Account
    sendBidResult := Except.ok 999 }

/-- A sentry routing table with the single validator `v1` and the single
builder address 187. -/
def sentry1 : MevSentry :=
  { timeout := 1000000000
    validators := [("v1", v1Peer)]
    builders := [(187, { reportIssueResult := Except.ok () })] }

/-- A bid with builder fee 150 whose signature recovers builder 187. -/
def bidArgs150 : BidArgs :=
  { rawBid := { builderFee := 150 }, ecrecover := Except.ok 187, payBidTx := none }

/-! ## Claim C1: independence of the refresh tick's field updates -/

/-- Claim C1 counterexample: on a refresh tick where the liveness fetch
fails but the balance fetch succeeds, the cached liveness field is NOT
left at its previous value: it was `true` before the tick and is stored
as `false` by the tick, while the balance field is updated to the fetched
value. -/
theorem refresh_liveness_overwritten :
    prevSnapshot.mevRunning = true
    ∧ tickLivenessFails.mevRunning = none
    ∧ tickLivenessFails.balance = some 100
    ∧ (refresh prevSnapshot tickLivenessFails).mevRunning ≠ prevSnapshot.mevRunning
    ∧ (refresh prevSnapshot tickLivenessFails).payAccountBalance = some 100 := by
  decide

/-- Claim C1 (amended): on every refresh tick each field is fetched and
applied independently — each cached field after the tick is a function of
its own fetch result and its own previous value only, and a failure on
one field neither rolls back nor delays the updates of the others. For
the chain id, the balance and the mev params a failed fetch leaves the
previous cached value; but for liveness a failed fetch stores `false` and
for the nonce a failed fetch stores `0`, overwriting the previous value.
In particular, a tick where the liveness fetch fails but the balance
fetch succeeds stores `false` into the liveness field while the balance
field is updated. -/
theorem refresh_partial_failure (v : ValidatorState) (r : FetchResults) :
    (r.chainID = none → (refresh v r).chainID = v.chainID)
    ∧ (∀ c, r.chainID = some c → (refresh v r).chainID = some c)
    ∧ (r.balance = none → (refresh v r).payAccountBalance = v.payAccountBalance)
    ∧ (∀ b, r.balance = some b → (refresh v r).payAccountBalance = some b)
    ∧ (r.mevParams = none → (refresh v r).mevParams = v.mevParams)
    ∧ (∀ p, r.mevParams = some p → (refresh v r).mevParams = some p)
    ∧ (r.mevRunning = none → (refresh v r).mevRunning = false)
    ∧ (∀ b, r.mevRunning = some b → (refresh v r).mevRunning = b)
    ∧ (r.nonce = none → (refresh v r).payAccountNonce = 0)
    ∧ (∀ k, r.nonce = some k → (refresh v r).payAccountNonce = k) := by
  unfold refresh
  refine ⟨?_, ?_, ?_, ?_, ?_, ?_, ?_, ?_, ?_, ?_⟩
  · intro h; simp [h]
  · intro c h; simp [h]
  · intro h; simp [h]
  · intro b h; simp [h]
  · intro h; simp [h]
  · intro p h; simp [h]
  · intro h; simp [h]
  · intro b h; simp [h]
  · intro h; simp [h]
  · intro k h; simp [h]

/-- Witness for the amended claim C1, at the concrete tick of the
counterexample. -/
theorem refresh_partial_failure_witness :
    (refresh prevSnapshot tickLivenessFails).mevRunning = false
    ∧ (refresh prevSnapshot tickLivenessFails).payAccountBalance = some 100 := by
  obtain ⟨h1, h2, h3, h4, h5, h6, h7, h8, h9, h10⟩ :=
    refresh_partial_failure prevSnapshot tickLivenessFails
  exact ⟨h7 rfl, h4 100 rfl⟩

/-! ## Claims C3, C4, C9, C10: the payment-transaction generator -/

/-- Claim C3: whenever the cached balance is strictly less than the fee
amount, `GeneratePayBidTx` fails with the insufficient-balance error, no
signing call is made, and the cached state (balance and nonce included)
is unchanged by the failed attempt. -/
theorem generatePayBidTx_insufficient_balance (v : ValidatorState) (acc : Account)
    (builder : Address) (builderFee : Option Int) (b : Int)
    (hb : v.payAccountBalance = some b) (hlt : b < builderFee.getD 0) :
    generatePayBidTx v acc builder builderFee =
      { state := v
        signCalls := []
        output := some (Except.error GenError.insufficientBalance) } := by
  simp [generatePayBidTx, hb, hlt]

/-- Witness for claim C3: scenario 2 — balance 50, nonce 7, fee 80. -/
theorem generatePayBidTx_insufficient_balance_witness :
    generatePayBidTx v1State v1Account 187 (some 80) =
      { state := v1State
        signCalls := []
        output := some (Except.error GenError.insufficientBalance) } :=
  generatePayBidTx_insufficient_balance v1State v1Account 187 (some 80) 50 rfl (by decide)

/-- Claim C4: every successful `GeneratePayBidTx` call builds a value
transfer whose recipient is the builder address argument, whose value is
the fee amount (zero when the fee argument is nil), whose gas price is 0,
whose gas limit is the fixed constant 25000, and whose nonce is the
cached nonce; exactly that transaction is handed to the signer, and its
signed binary encoding is returned. -/
theorem generatePayBidTx_builds_payment_tx (v : ValidatorState) (acc : Account)
    (builder : Address) (builderFee : Option Int) (b : Int)
    (hb : v.payAccountBalance = some b) (hge : ¬ b < builderFee.getD 0)
    (hs : acc.signErr = none) :
    generatePayBidTx v acc builder builderFee =
      { state := v
        signCalls := [{ nonce := v.payAccountNonce, gasPrice := 0, gas := 25000,
                        toAddr := builder, value := builderFee.getD 0 }]
        output := some (Except.ok (marshalBinary
          { inner := { nonce := v.payAccountNonce, gasPrice := 0, gas := 25000,
                       toAddr := builder, value := builderFee.getD 0 },
            signer := acc.address })) } := by
  simp [generatePayBidTx, hb, hge, hs, accountSignTx, payBidTxGasUsed]

/-- Witness for claim C4: scenario 3 — balance 200, nonce 7, fee 50,
builder address 187: the generated transaction has nonce 7, value 50, gas
limit 25000, gas price 0, recipient 187. -/
theorem generatePayBidTx_builds_payment_tx_witness :
    generatePayBidTx v2State v1Account 187 (some 50) =
      { state := v2State
        signCalls := [{ nonce := 7, gasPrice := 0, gas := 25000,
                        toAddr := 187, value := 50 }]
        output := some (Except.ok [7, 0, 25000, 187, 50, 170]) } := by
  have h := generatePayBidTx_builds_payment_tx v2State v1Account 187 (some 50) 200
    rfl (by decide) rfl
  simpa [marshalBinary, v2State, v1Account] using h

/-- Claim C9: while the cached mev params pointer is still nil (as it is
at construction, and as it stays across refresh ticks whose params fetch
fails), `BuilderFeeCeil` returns zero rather than failing, so every
positive builder fee exceeds the reported ceiling. -/
theorem builderFeeCeil_nil_params (v : ValidatorState) (r : FetchResults) (fee : Int)
    (h : v.mevParams = none) :
    builderFeeCeil v = 0
    ∧ (0 < fee → builderFeeCeil v < fee)
    ∧ initValidatorState.mevParams = none
    ∧ (r.mevParams = none → (refresh v r).mevParams = none) := by
  refine ⟨by simp [builderFeeCeil, h], by intro hf; simpa [builderFeeCeil, h] using hf,
    rfl, ?_⟩
  intro hr
  simp [refresh, hr, h]

/-- Witness for claim C9: at the freshly constructed cache the reported
ceiling is zero and the positive fee 7 exceeds it. -/
theorem builderFeeCeil_nil_params_witness :
    builderFeeCeil initValidatorState = 0 ∧ builderFeeCeil initValidatorState < 7 := by
  obtain ⟨h1, h2, h3, h4⟩ := builderFeeCeil_nil_params initValidatorState tickAllFail 7 rfl
  exact ⟨h1, h2 (by decide)⟩

/-- Claim C10: the cached balance pointer is nil from construction until
the first successful balance refresh (a failed balance fetch leaves it,
a successful one sets it), and `GeneratePayBidTx` dereferences it without
a nil guard: the call runs into the nil dereference exactly when the
balance pointer is still nil, so the sufficiency comparison is
well-defined only once some balance refresh has succeeded. -/
theorem generatePayBidTx_nil_balance (v : ValidatorState) (acc : Account)
    (builder : Address) (builderFee : Option Int) (r : FetchResults) :
    initValidatorState.payAccountBalance = none
    ∧ (r.balance = none → (refresh v r).payAccountBalance = v.payAccountBalance)
    ∧ (∀ b, r.balance = some b → (refresh v r).payAccountBalance = some b)
    ∧ ((generatePayBidTx v acc builder builderFee).output = none ↔
        v.payAccountBalance = none) := by
  refine ⟨rfl, ?_, ?_, ?_⟩
  · intro h; simp [refresh, h]
  · intro b h; simp [refresh, h]
  · cases hv : v.payAccountBalance with
    | none => simp [generatePayBidTx, hv]
    | some bal =>
      cases hs : acc.signErr with
      | none =>
        by_cases hlt : bal < builderFee.getD 0 <;>
          simp [generatePayBidTx, hv, hs, hlt, accountSignTx]
      | some e =>
        by_cases hlt : bal < builderFee.getD 0 <;>
          simp [generatePayBidTx, hv, hs, hlt, accountSignTx]

/-- Witness for claim C10: at the freshly constructed cache (balance
pointer nil) the call runs into the nil dereference. -/
theorem generatePayBidTx_nil_balance_witness :
    (generatePayBidTx initValidatorState v1Account 187 (some 1)).output = none :=
  (generatePayBidTx_nil_balance initValidatorState v1Account 187 (some 1)
    tickAllFail).2.2.2.mpr rfl

/-! ## Claim C8: round-trip of the encoded payment transaction -/

/-- Decoding inverts the modelled binary encoding. -/
theorem unmarshal_marshalBinary (s : SignedTx) :
    unmarshalBinary (marshalBinary s) = some s := by
  simp [marshalBinary, unmarshalBinary, Int.toNat_ofNat]

/-- Claim C8: for every transaction successfully produced by
`GeneratePayBidTx`, decoding the returned binary bytes reproduces the
same recipient, value and nonce, and the signature of the decoded
transaction recovers to the configured signer account's address. -/
theorem generatePayBidTx_round_trip (v : ValidatorState) (acc : Account)
    (builder : Address) (builderFee : Option Int) (bytes : List Int)
    (h : (generatePayBidTx v acc builder builderFee).output =
      some (Except.ok bytes)) :
    unmarshalBinary bytes =
      some { inner := { nonce := v.payAccountNonce, gasPrice := 0, gas := 25000,
                        toAddr := builder, value := builderFee.getD 0 },
             signer := acc.address }
    ∧ (∀ stx, unmarshalBinary bytes = some stx → recoverSender stx = acc.address) := by
  have hbytes : bytes = marshalBinary
      { inner := { nonce := v.payAccountNonce, gasPrice := 0, gas := payBidTxGasUsed,
                   toAddr := builder, value := builderFee.getD 0 },
        signer := acc.address } := by
    cases hv : v.payAccountBalance with
    | none => simp [generatePayBidTx, hv] at h
    | some bal =>
      by_cases hlt : bal < builderFee.getD 0
      · simp [generatePayBidTx, hv, hlt] at h
      · cases hs : acc.signErr with
        | some e => simp [generatePayBidTx, hv, hlt, accountSignTx, hs] at h
        | none =>
          simp [generatePayBidTx, hv, hlt, accountSignTx, hs] at h
          exact h.symm
  subst hbytes
  rw [unmarshal_marshalBinary]
  refine ⟨by simp [payBidTxGasUsed], ?_⟩
  intro stx hstx
  have hx := Option.some.inj hstx
  rw [← hx]
  rfl

/-- Witness for claim C8: the bytes produced in scenario 3 decode back to
nonce 7, value 50, recipient 187, and the recovered signer is the pay
account address 170. -/
theorem generatePayBidTx_round_trip_witness :
    unmarshalBinary [7, 0, 25000, 187, 50, 170] =
      some { inner := { nonce := 7, gasPrice := 0, gas := 25000,
                        toAddr := 187, value := 50 },
             signer := 170 } := by
  have h := generatePayBidTx_round_trip v2State v1Account 187 (some 50)
    [7, 0, 25000, 187, 50, 170] rfl
  simpa [v2State, v1Account] using h.1

/-! ## Claim C2: the fee-ceiling check in the dispatch layer -/

/-- Claim C2: a `SendBid` dispatch whose bid carries a builder fee
strictly greater than the resolved validator's fee ceiling fails with the
fee-ceiling-exceeded invalid-bid error and never invokes the Payment
Transaction Generator; a fee equal to the ceiling, and a fee of zero,
pass the ceiling check (the dispatch never returns the fee-ceiling error
for them). -/
theorem sendBid_fee_ceiling (s : MevSentry) (host : String) (args : BidArgs)
    (v : ValidatorPeer)
    (hv : List.lookup (stripPort host) s.validators = some v) :
    ((v.bidFeeCeil : Int) < args.rawBid.builderFee →
      sendBid s host args =
        { genCalls := []
          result := some (Except.error
            (SendBidError.feeCeilingExceeded (v.bidFeeCeil : Int))) })
    ∧ (args.rawBid.builderFee = (v.bidFeeCeil : Int) →
      ∀ c, (sendBid s host args).result ≠
        some (Except.error (SendBidError.feeCeilingExceeded c)))
    ∧ (args.rawBid.builderFee = 0 →
      ∀ c, (sendBid s host args).result ≠
        some (Except.error (SendBidError.feeCeilingExceeded c))) := by
  have main : ¬ (v.bidFeeCeil : Int) < args.rawBid.builderFee →
      ∀ c, (sendBid s host args).result ≠
        some (Except.error (SendBidError.feeCeilingExceeded c)) := by
    intro hle c
    cases hec : args.ecrecover with
    | error e => simp [sendBid, hv, hle, hec]
    | ok builder =>
      cases hg : (generatePayBidTx v.state v.account builder
          (some args.rawBid.builderFee)).output with
      | none => simp [sendBid, hv, hle, hec, hg]
      | some out =>
        cases out with
        | error ge => simp [sendBid, hv, hle, hec, hg]
        | ok bytes =>
          cases hsr : v.sendBidResult with
          | error e => simp [sendBid, hv, hle, hec, hg, hsr]
          | ok hh => simp [sendBid, hv, hle, hec, hg, hsr]
  refine ⟨?_, ?_, ?_⟩
  · intro hgt
    simp [sendBid, hv, hgt]
  · intro heq
    exact main (by omega)
  · intro h0
    exact main (by omega)

/-- Witness for claim C2: scenario 1 — validator `v1` with ceiling 100
and a bid with fee 150: the dispatch rejects with the fee-ceiling error
and makes no generator call; and a fee of 100 (equal to the ceiling)
never produces the fee-ceiling error. -/
theorem sendBid_fee_ceiling_witness :
    sendBid sentry1 "v1:8545" bidArgs150 =
      { genCalls := []
        result := some (Except.error (SendBidError.feeCeilingExceeded 100)) }
    ∧ ∀ c, (sendBid sentry1 "v1:8545"
        { rawBid := { builderFee := 100 }, ecrecover := Except.ok 187,
          payBidTx := none }).result ≠
      some (Except.error (SendBidError.feeCeilingExceeded c)) := by
  constructor
  · have h := (sendBid_fee_ceiling sentry1 "v1:8545" bidArgs150 v1Peer rfl).1
      (by decide)
    simpa [v1Peer] using h
  · exact (sendBid_fee_ceiling sentry1 "v1:8545"
      { rawBid := { builderFee := 100 }, ecrecover := Except.ok 187,
        payBidTx := none } v1Peer rfl).2.1 (by decide)

/-! ## Claim C5: routing-key extraction and peer lookup -/

/-- A colon-free host identity is kept whole by the port-stripping
normalisation, and a colon-separated suffix is dropped. -/
theorem takeWhile_colon (name port : List Char) (h : ':' ∉ name) :
    (name ++ ':' :: port).takeWhile (fun c => c ≠ ':') = name
    ∧ name.takeWhile (fun c => c ≠ ':') = name := by
  induction name with
  | nil =>
    refine ⟨?_, rfl⟩
    rw [List.nil_append, List.takeWhile_cons, if_neg (by decide)]
  | cons a t ih =>
    rw [List.mem_cons, not_or] at h
    obtain ⟨ha, ht⟩ := h
    obtain ⟨ih1, ih2⟩ := ih ht
    have hc : decide (a ≠ ':') = true := decide_eq_true (Ne.symm ha)
    constructor
    · rw [List.cons_append, List.takeWhile_cons, if_pos hc, ih1]
    · rw [List.takeWhile_cons, if_pos hc, ih2]

/-- Claim C5: every validator-bound call routes by the inbound
connection's declared host identity with any port suffix stripped (the
prefix before the first colon); resolving a hostname absent from the
routing table — or, for builder-bound calls, an absent builder address —
returns the peer-not-found error as an ordinary value, without
panicking. -/
theorem routing_peer_not_found (s : MevSentry) (host : String) (args : BidArgs)
    (issue : BidIssue) (name port : List Char) (hn : ':' ∉ name) :
    (List.lookup (stripPort host) s.validators = none →
      sendBid s host args =
        { genCalls := []
          result := some (Except.error SendBidError.validatorNotFound) })
    ∧ (List.lookup issue.builder s.builders = none →
      reportIssue s issue = Except.error ReportIssueError.builderNotFound)
    ∧ stripPort (String.mk (name ++ ':' :: port)) = String.mk name
    ∧ stripPort (String.mk name) = String.mk name := by
  obtain ⟨h1, h2⟩ := takeWhile_colon name port hn
  refine ⟨?_, ?_, ?_, ?_⟩
  · intro h; simp [sendBid, h]
  · intro h; simp [reportIssue, h]
  · show String.mk (List.takeWhile (fun c => c ≠ ':') (name ++ ':' :: port)) =
      String.mk name
    rw [h1]
  · show String.mk (List.takeWhile (fun c => c ≠ ':') name) = String.mk name
    rw [h2]

/-- Witness for claim C5: the unknown hostname `unknown:8545` and the
unknown builder address 5 are rejected with the respective
peer-not-found errors, and the routing key of `v1:8545` is `v1`. -/
theorem routing_peer_not_found_witness :
    sendBid sentry1 "unknown:8545" bidArgs150 =
      { genCalls := []
        result := some (Except.error SendBidError.validatorNotFound) }
    ∧ reportIssue sentry1 { builder := 5 } =
      Except.error ReportIssueError.builderNotFound
    ∧ stripPort "v1:8545" = "v1" := by
  obtain ⟨h1, h2, h3, h4⟩ := routing_peer_not_found sentry1 "unknown:8545"
    bidArgs150 { builder := 5 } ['v', '1'] ['8', '5', '4', '5'] (by decide)
  exact ⟨h1 rfl, h2 rfl, h3⟩

/-! ## Claim C7: the per-call deadline -/

/-- Claim C7: the dispatch layer applies a deadline derived from the
configured timeout to the call's context if and only if the configured
timeout is strictly positive; a timeout of zero (or negative, the unset
zero value included) leaves the context untouched and hence without a
deadline. -/
theorem timeoutCancel_deadline_iff (ctx : Context) (t now : Int)
    (h : ctx.deadline = none) :
    ((timeoutCancel ctx t now).deadline ≠ none ↔ 0 < t)
    ∧ (0 < t → (timeoutCancel ctx t now).deadline = some (now + t))
    ∧ (¬ 0 < t → timeoutCancel ctx t now = ctx) := by
  by_cases ht : 0 < t <;> simp [timeoutCancel, ht, h]

/-- Witness for claim C7: a 5-unit timeout sets the deadline, a zero
timeout leaves the deadline-free context unchanged. -/
theorem timeoutCancel_deadline_iff_witness :
    (timeoutCancel { deadline := none } 5 0).deadline = some 5
    ∧ timeoutCancel { deadline := none } 0 0 = { deadline := none } := by
  constructor
  · have h := (timeoutCancel_deadline_iff { deadline := none } 5 0 rfl).2.1
      (by decide)
    simpa using h
  · exact (timeoutCancel_deadline_iff { deadline := none } 0 0 rfl).2.2 (by decide)

/-! ## Claim C6: the admission limiter -/

/-- Claim C6: with a configured capacity `max > 0` the admission gate
admits at most `max` callers at once — every reachable gate state keeps
at most `max` calls in flight, a further caller arriving at a full gate
is not enabled to enter (it blocks), and as soon as one slot frees
(one `leave` transition) entry is enabled again; a configured capacity of
zero or negative disables limiting entirely, every caller being enabled
to proceed immediately in every state. -/
theorem concurrencyLimiter_capacity (max : Int) (n : Nat) :
    (0 < max → LimiterReachable max n → (n : Int) ≤ max)
    ∧ (0 < max → (n : Int) = max → ¬ canEnter max n)
    ∧ (0 < max → (n : Int) = max →
        LimiterStep max n (n - 1) ∧ canEnter max (n - 1))
    ∧ (max ≤ 0 → canEnter max n) := by
  refine ⟨?_, ?_, ?_, ?_⟩
  · intro hpos hreach
    induction hreach with
    | init => simpa using hpos.le
    | step hr hs ih =>
      cases hs with
      | enter k hk =>
        rcases hk with hk | hk
        · omega
        · push_cast at ih ⊢
          omega
      | leave k =>
        push_cast at ih ⊢
        omega
  · intro hpos hn
    unfold canEnter
    omega
  · intro hpos hn
    have hge : 1 ≤ n := by omega
    obtain ⟨k, rfl⟩ : ∃ k, n = k + 1 := ⟨n - 1, by omega⟩
    refine ⟨?_, ?_⟩
    · simpa using @LimiterStep.leave max k
    · unfold canEnter
      push_cast at hn
      omega
  · intro hle
    exact Or.inl hle

/-- Witness for claim C6: capacity 2 — the state with two in-flight
calls is reachable and within the bound, a third caller cannot enter,
and after one caller leaves entry is enabled; capacity 0 disables the
gate. -/
theorem concurrencyLimiter_capacity_witness :
    ((2 : Nat) : Int) ≤ 2 ∧ ¬ canEnter 2 2 ∧ canEnter 2 1 ∧ canEnter 0 5 := by
  have hreach : LimiterReachable 2 2 :=
    LimiterReachable.step
      (LimiterReachable.step LimiterReachable.init
        (LimiterStep.enter 0 (Or.inr (by decide))))
      (LimiterStep.enter 1 (Or.inr (by decide)))
  refine ⟨(concurrencyLimiter_capacity 2 2).1 (by decide) hreach,
    (concurrencyLimiter_capacity 2 2).2.1 (by decide) (by decide), ?_, ?_⟩
  · exact ((concurrencyLimiter_capacity 2 2).2.2.1 (by decide) (by decide)).2
  · exact (concurrencyLimiter_capacity 0 5).2.2.2 (by decide)
